import Mathlib

set_option linter.unusedVariables false

/-!
Verification of the ai_sprint coordination plane.

The definitions below are a shallow embedding of the repository's Python
source (package `ai_sprint`): the SQLite database becomes an explicit
record of lists of rows, every mutating function becomes a Lean function
from the database state to the (result, new state) pair, and the
non-deterministic bits at the boundary (UUID generation, the wall clock,
subprocess outcomes) become explicit parameters.  All timestamps stay
ISO-8601 strings, as in the store, where lexicographic order is
chronological order.
-/

namespace AiSprint

/-- Task status enumeration, from the `tasks.status` CHECK constraint in
`state_manager.SCHEMA_SQL`. -/
inductive TaskStatus where
  | todo
  | inProgress
  | inReview
  | inTests
  | inDocs
  | done
deriving DecidableEq, Repr, Fintype

/-- Convoy status enumeration, from the `convoys.status` CHECK constraint. -/
inductive ConvoyStatus where
  | available
  | inProgress
  | done
  | blocked
deriving DecidableEq, Repr

/-- Feature status enumeration, from the `features.status` CHECK constraint. -/
inductive FeatureStatus where
  | ready
  | inProgress
  | done
  | failed
deriving DecidableEq, Repr

/-- Event status enumeration, from the `events.status` CHECK constraint. -/
inductive EventStatus where
  | pending
  | processing
  | done
  | failed
deriving DecidableEq, Repr

/-- Agent session status enumeration, from the `agent_sessions.status` CHECK
constraint. -/
inductive SessionStatus where
  | active
  | crashed
  | hung
  | stuck
deriving DecidableEq, Repr

/-- A value inside an event payload (the source stores payloads as JSON
objects; the claims only need string and integer fields). -/
inductive PVal where
  | str (s : String)
  | num (n : Nat)
deriving DecidableEq, Repr

/-- A row of the `tasks` table. -/
structure Task where
  id : String
  convoyId : String
  title : String
  description : String
  filePath : String
  status : TaskStatus
  priority : String
  assignee : Option String
  failureReason : Option String
  failureCount : Nat
  createdAt : String
  startedAt : Option String
  completedAt : Option String
deriving DecidableEq, Repr

/-- A row of the `convoys` table.  `dependencies` is stored as a JSON array
(`create_convoy` writes `json.dumps(dependencies or [])`), modelled as the
decoded list. -/
structure Convoy where
  id : String
  featureId : String
  story : String
  priority : String
  files : List String
  dependencies : List String
  status : ConvoyStatus
  assignee : Option String
  createdAt : String
  startedAt : Option String
  completedAt : Option String
deriving DecidableEq, Repr

/-- A row of the `features` table. -/
structure Feature where
  id : String
  name : String
  specPath : String
  status : FeatureStatus
  createdAt : String
  startedAt : Option String
  completedAt : Option String
deriving DecidableEq, Repr

/-- A row of the `events` table. -/
structure Event where
  id : String
  agentId : String
  eventType : String
  payload : List (String × PVal)
  status : EventStatus
  createdAt : String
  processedAt : Option String
deriving DecidableEq, Repr

/-- A row of the `agent_sessions` table. -/
structure AgentSession where
  agentId : String
  agentType : String
  convoyId : Option String
  currentTask : Option String
  worktree : Option String
  status : SessionStatus
  lastHeartbeat : String
  startedAt : String
  crashedAt : Option String
deriving DecidableEq, Repr

/-- The whole database.  `now` is the value `datetime('now')` returns for the
current operation (the model threads the wall clock explicitly). -/
structure DB where
  features : List Feature
  convoys : List Convoy
  tasks : List Task
  events : List Event
  sessions : List AgentSession
  now : String
deriving DecidableEq, Repr

/-! ### Task state machine (`state_manager.py`, T041) -/

/-- `VALID_TASK_TRANSITIONS`: the adjacency map of the task state machine. -/
def validTaskTransitions : TaskStatus → List TaskStatus
  | .todo => [.inProgress]
  | .inProgress => [.inReview, .todo]
  | .inReview => [.inTests, .inProgress]
  | .inTests => [.inDocs, .inProgress]
  | .inDocs => [.done, .inProgress]
  | .done => []

/-- `validate_task_transition`: membership in the adjacency map. -/
def validate_task_transition (fromStatus toStatus : TaskStatus) : Bool :=
  (validTaskTransitions fromStatus).contains toStatus

/-- `get_task`: `SELECT * FROM tasks WHERE id = ?`. -/
def get_task (s : DB) (taskId : String) : Option Task :=
  s.tasks.find? (fun t => t.id == taskId)

/-- `update_task_status`: set the status (and optionally the assignee), and
stamp `started_at` on `in_progress` resp. `completed_at` on `done`. -/
def update_task_status (s : DB) (taskId : String) (status : TaskStatus)
    (assignee : Option String := none) : DB :=
  { s with tasks := s.tasks.map (fun t =>
      if t.id == taskId then
        let t1 := { t with status := status }
        let t2 := match assignee with
          | some a => { t1 with assignee := some a }
          | none => t1
        match status with
        | .inProgress => { t2 with startedAt := some s.now }
        | .done => { t2 with completedAt := some s.now }
        | _ => t2
      else t) }

/-- `transition_task_status`: look the task up, validate the transition, and
apply it; returns `false` (leaving the state unchanged) when the task is
absent or the transition is illegal. -/
def transition_task_status (s : DB) (taskId : String) (toStatus : TaskStatus) :
    Bool × DB :=
  match get_task s taskId with
  | none => (false, s)
  | some task =>
    if validate_task_transition task.status toStatus then
      (true, update_task_status s taskId toStatus)
    else
      (false, s)

/-! ### Sorting

`consume_events` relies on SQL `ORDER BY created_at` and
`allocate_next_convoy` on Python's `sorted` with a tuple key; both are
modelled by insertion sort with an explicit boolean order. -/

/-- Insert `x` into `l` before the first element `y` with `le x y`. -/
def insertLe (le : α → α → Bool) (x : α) : List α → List α
  | [] => [x]
  | y :: ys => if le x y then x :: y :: ys else y :: insertLe le x ys

/-- Insertion sort by the boolean order `le`. -/
def sortLe (le : α → α → Bool) : List α → List α
  | [] => []
  | x :: xs => insertLe le x (sortLe le xs)

/-! ### Event queue (`state_manager.py`, T030) -/

/-- `publish_event`: insert a `pending` row.  The source draws a fresh
`uuid.uuid4()` for the id; the model takes the drawn id as the explicit
parameter `eventId`. -/
def publish_event (s : DB) (eventId agentId eventType : String)
    (payload : List (String × PVal)) : DB :=
  { s with events := s.events ++
      [{ id := eventId, agentId := agentId, eventType := eventType,
         payload := payload, status := .pending, createdAt := s.now,
         processedAt := none }] }

/-- Order used by `consume_events` (`ORDER BY created_at`). -/
def eventLe (a b : Event) : Bool :=
  decide (a.createdAt ≤ b.createdAt)

/-- `consume_events`: inside one immediate transaction, select the oldest
up-to-`limit` `pending` rows for the agent, flip them to `processing`, and
return the selected rows (as read, i.e. still showing status `pending`). -/
def consume_events (s : DB) (agentId : String) (limit : Nat) :
    List Event × DB :=
  let pending := s.events.filter
    (fun e => e.agentId == agentId && e.status == EventStatus.pending)
  let selected := (sortLe eventLe pending).take limit
  if selected.isEmpty then (selected, s)
  else
    let ids := selected.map (fun e => e.id)
    (selected, { s with events := s.events.map (fun e =>
        if ids.contains e.id then { e with status := .processing } else e) })

/-- `acknowledge_event`: set the status to `done` (success) or `failed` and
stamp `processed_at`.  The UPDATE carries no predicate on the current
status. -/
def acknowledge_event (s : DB) (eventId : String) (success : Bool) : DB :=
  { s with events := s.events.map (fun e =>
      if e.id == eventId then
        { e with status := if success then .done else .failed,
                 processedAt := some s.now }
      else e) }

/-! ### Reject and escalate (`state_manager.py` T042, `cab.py` T035) -/

/-- `increment_task_failure_count`: bump `failure_count`, set
`failure_reason`, and return the post-increment count re-read from the row
(0 when the task is absent). -/
def increment_task_failure_count (s : DB) (taskId reason : String) :
    Nat × DB :=
  let s1 := { s with tasks := s.tasks.map (fun t =>
      if t.id == taskId then
        { t with failureCount := t.failureCount + 1,
                 failureReason := some reason }
      else t) }
  match get_task s1 taskId with
  | some t => (t.failureCount, s1)
  | none => (0, s1)

/-- `state_manager.reject_task`: increment the failure count with the reason,
transition back to `in_progress`, and when the post-increment count is at
least 3 publish an `ESCALATE_TASK` event to `manager` with the task id and
count in the payload.  `escalateEventId` is the UUID drawn for that event. -/
def reject_task (s : DB) (taskId reason rejectingAgent : String)
    (escalateEventId : String) : DB :=
  match get_task s taskId with
  | none => s
  | some _ =>
    let r1 := increment_task_failure_count s taskId reason
    let s2 := (transition_task_status r1.2 taskId .inProgress).2
    if r1.1 ≥ 3 then
      publish_event s2 escalateEventId "manager" "ESCALATE_TASK"
        [("task_id", .str taskId), ("failure_count", .num r1.1)]
    else s2

/-- `CABAgent.reject_task`: set the task back to `in_progress` and publish a
`REWORK_NEEDED` event to `developer` with the reason in the payload.
`reworkEventId` is the UUID drawn for that event. -/
def cab_reject_task (s : DB) (taskId reason reworkEventId : String) : DB :=
  let s1 := update_task_status s taskId .inProgress
  publish_event s1 reworkEventId "developer" "REWORK_NEEDED"
    [("task_id", .str taskId), ("reason", .str reason)]

/-! ### Atomic task claim (`state_manager.py`, T029) -/

/-- `claim_task_atomic`: inside an immediate transaction, claim the task
exactly when it exists with status `todo` and no assignee; otherwise roll
back and return `false`. -/
def claim_task_atomic (s : DB) (taskId assignee : String) : Bool × DB :=
  match get_task s taskId with
  | none => (false, s)
  | some row =>
    if row.status == TaskStatus.todo && row.assignee == none then
      (true, { s with tasks := s.tasks.map (fun t =>
          if t.id == taskId then
            { t with status := .inProgress, assignee := some assignee,
                     startedAt := some s.now }
          else t) })
    else (false, s)

/-! ### Convoys (`state_manager.py` T028/T043/T052/T054) -/

/-- `get_convoy`: `SELECT * FROM convoys WHERE id = ?`. -/
def get_convoy (s : DB) (convoyId : String) : Option Convoy :=
  s.convoys.find? (fun c => c.id == convoyId)

/-- `list_convoys_by_feature`: the feature's convoys, optionally filtered by
status.  The SQL orders by `priority` with unspecified tie order; the model
keeps table order — every caller either re-sorts or is order-insensitive. -/
def list_convoys_by_feature (s : DB) (featureId : String)
    (status : Option ConvoyStatus := none) : List Convoy :=
  match status with
  | some st => s.convoys.filter
      (fun c => c.featureId == featureId && c.status == st)
  | none => s.convoys.filter (fun c => c.featureId == featureId)

/-- `update_convoy_status`: set status and assignee (the SQL always writes
the assignee column, `NULL` when the argument is absent), stamping
`started_at` on `in_progress` and `completed_at` on `done`. -/
def update_convoy_status (s : DB) (convoyId : String) (status : ConvoyStatus)
    (assignee : Option String := none) : DB :=
  { s with convoys := s.convoys.map (fun c =>
      if c.id == convoyId then
        let c1 := { c with status := status, assignee := assignee }
        match status with
        | .inProgress => { c1 with startedAt := some s.now }
        | .done => { c1 with completedAt := some s.now }
        | _ => c1
      else c) }

/-- `create_convoy`: a plain INSERT.  SQLite enforces the primary key on
`convoys.id` and (with `PRAGMA foreign_keys=ON`) the reference to
`features.id`; any other row is inserted as given, with no file-overlap
check. -/
def create_convoy (s : DB) (convoyId featureId story priority : String)
    (files : List String) (dependencies : List String := [])
    (status : ConvoyStatus := .available) : Except String DB :=
  if s.convoys.any (fun c => c.id == convoyId) then
    .error "UNIQUE constraint failed: convoys.id"
  else if !(s.features.any (fun f => f.id == featureId)) then
    .error "FOREIGN KEY constraint failed"
  else
    .ok { s with convoys := s.convoys ++
      [{ id := convoyId, featureId := featureId, story := story,
         priority := priority, files := files,
         dependencies := dependencies, status := status, assignee := none,
         createdAt := s.now, startedAt := none, completedAt := none }] }

/-- One entry of the conflict list built by `check_file_overlap`. -/
structure FileConflict where
  convoyId : String
  convoyStatus : ConvoyStatus
  overlappingFiles : List String
deriving DecidableEq, Repr

/-- `check_file_overlap`: for every non-`done` convoy of the feature whose
file set meets the proposed files, record the convoy and the overlap.  The
Python set intersection is modelled as a filter (same elements). -/
def check_file_overlap (s : DB) (featureId : String)
    (proposedFiles : List String) : List FileConflict :=
  (list_convoys_by_feature s featureId).filterMap (fun c =>
    if c.status == ConvoyStatus.done then none
    else
      let overlapping := proposedFiles.filter (fun f => c.files.contains f)
      if overlapping.isEmpty then none
      else some { convoyId := c.id, convoyStatus := c.status,
                  overlappingFiles := overlapping })

/-- `validate_no_file_conflicts`: raise `ValueError` when
`check_file_overlap` reports conflicts.  The raised message lists, per
conflict, the convoy id and the overlapping files; the model's error carries
that data directly. -/
def validate_no_file_conflicts (s : DB) (featureId : String)
    (proposedFiles : List String) : Except (List FileConflict) Unit :=
  let conflicts := check_file_overlap s featureId proposedFiles
  if conflicts.isEmpty then .ok () else .error conflicts

/-- `update_convoy_files`: overwrite the convoy's file list, with no
overlap check. -/
def update_convoy_files (s : DB) (convoyId : String) (files : List String) :
    DB :=
  { s with convoys := s.convoys.map (fun c =>
      if c.id == convoyId then { c with files := files } else c) }

/-! ### Completion checks (`state_manager.py` T043/T044) -/

/-- `list_tasks_by_convoy`: the convoy's tasks (SQL orders by `created_at`;
the callers below only aggregate, so the model keeps table order). -/
def list_tasks_by_convoy (s : DB) (convoyId : String) : List Task :=
  s.tasks.filter (fun t => t.convoyId == convoyId)

/-- `check_convoy_completion`: `false` when the convoy has no tasks;
otherwise, when every task is `done`, mark the convoy `done` and return
`true`. -/
def check_convoy_completion (s : DB) (convoyId : String) : Bool × DB :=
  let tasks := list_tasks_by_convoy s convoyId
  if tasks.isEmpty then (false, s)
  else
    let allDone := tasks.all (fun t => t.status == TaskStatus.done)
    if allDone then (true, update_convoy_status s convoyId .done)
    else (false, s)

/-- `update_feature_status`: set the status, stamping `started_at` on
`in_progress` and `completed_at` on `done` and `failed`. -/
def update_feature_status (s : DB) (featureId : String)
    (status : FeatureStatus) : DB :=
  { s with features := s.features.map (fun f =>
      if f.id == featureId then
        let f1 := { f with status := status }
        match status with
        | .inProgress => { f1 with startedAt := some s.now }
        | .done => { f1 with completedAt := some s.now }
        | .failed => { f1 with completedAt := some s.now }
        | _ => f1
      else f) }

/-- `check_feature_completion`: `false` when the feature has no convoys;
otherwise, when every convoy is `done`, mark the feature `done` and return
`true`. -/
def check_feature_completion (s : DB) (featureId : String) : Bool × DB :=
  let convoys := list_convoys_by_feature s featureId
  if convoys.isEmpty then (false, s)
  else
    let allDone := convoys.all (fun c => c.status == ConvoyStatus.done)
    if allDone then (true, update_feature_status s featureId .done)
    else (false, s)

/-! ### Convoy allocator (`convoy_allocator.py`, T055/T056) -/

/-- `check_convoy_dependencies_met`: the convoy exists and each of its
dependencies exists with status `done`.  The source returns `True` for a
NULL or empty dependency list, which `List.all` on `[]` reproduces. -/
def check_convoy_dependencies_met (s : DB) (convoyId : String) : Bool :=
  match get_convoy s convoyId with
  | none => false
  | some convoy =>
    convoy.dependencies.all (fun depId =>
      match get_convoy s depId with
      | none => false
      | some dep => dep.status == ConvoyStatus.done)

/-- The key used by `allocate_next_convoy`'s Python
`sorted(key=(priority, created_at))`: lexicographic on the pair of
strings. -/
def convoyLe (a b : Convoy) : Bool :=
  decide (a.priority < b.priority) ||
    (a.priority == b.priority && decide (a.createdAt ≤ b.createdAt))

/-- `allocate_next_convoy`: take the feature's `available` convoys, sort by
(priority, created_at), look only at the first candidate; when its
dependencies are all `done`, flip it to `in_progress` with the agent as
assignee and return its id, else return nothing (the state unchanged). -/
def allocate_next_convoy (s : DB) (featureId agentId : String) :
    Option String × DB :=
  let convoys := list_convoys_by_feature s featureId (some .available)
  match (sortLe convoyLe convoys).head? with
  | none => (none, s)
  | some convoy =>
    if check_convoy_dependencies_met s convoy.id then
      (some convoy.id,
       update_convoy_status s convoy.id .inProgress (some agentId))
    else (none, s)

/-- `unblock_dependent_convoys`: after a convoy completes, sweep the
feature's `blocked` convoys (as listed at entry) and flip to `available`
each one whose dependencies are now all `done`, re-checking against the
evolving state as the source does; returns the count of unblocked
convoys. -/
def unblock_dependent_convoys (s : DB) (completedConvoyId : String) :
    Nat × DB :=
  match get_convoy s completedConvoyId with
  | none => (0, s)
  | some completed =>
    let blocked :=
      list_convoys_by_feature s completed.featureId (some .blocked)
    blocked.foldl (fun acc c =>
      if check_convoy_dependencies_met acc.2 c.id then
        (acc.1 + 1, update_convoy_status acc.2 c.id .available)
      else acc) (0, s)

/-! ### Health monitor (`health_monitor.py`) -/

/-- `HealthMonitor.record_heartbeat`: `UPDATE agent_sessions SET
last_heartbeat = ? WHERE agent_id = ? AND status = 'active'` — only an
active session's heartbeat timestamp is refreshed. -/
def record_heartbeat (s : DB) (agentId : String) : DB :=
  { s with sessions := s.sessions.map (fun sess =>
      if sess.agentId == agentId && sess.status == SessionStatus.active then
        { sess with lastHeartbeat := s.now }
      else sess) }

/-! ### Quality gates (`quality_gates.py`) -/

/-- `GateType`: the eight gate kinds. -/
inductive GateType where
  | linting
  | typeChecking
  | complexity
  | coverage
  | mutation
  | sast
  | dependencyScan
  | secretDetection
deriving DecidableEq, Repr

/-- `GateStatus`: the four possible gate outcomes. -/
inductive GateStatus where
  | pass
  | fail
  | skip
  | error
deriving DecidableEq, Repr

/-- `GateResult`: gate kind, outcome and message (the `details` dict and
`score` play no role in the pass rule and are omitted). -/
structure GateResult where
  gateType : GateType
  status : GateStatus
  message : String
deriving DecidableEq, Repr

/-- `QualityGateRunner.run_gate`: dispatch to the per-gate body and append
the result.  The body runs external tools, so its outcome is the explicit
parameter `outcome`: `some r` when the body returned the result `r`, `none`
when it raised — in which case a required gate records `ERROR` and an
optional one `SKIP`. -/
def run_gate (gateType : GateType) (required : Bool)
    (outcome : Option GateResult) (results : List GateResult) :
    GateResult × List GateResult :=
  let result := match outcome with
    | some r => r
    | none =>
      { gateType := gateType,
        status := if required then GateStatus.error else GateStatus.skip,
        message := "Gate execution failed" }
  (result, results ++ [result])

/-- `QualityGateRunner.run_all_gates`: reset the result list and run the
stage's gates in order — `review` = linting, type_checking, complexity (all
required); `tests` = coverage (required), mutation (optional); `merge` =
sast, dependency_scan, secret_detection (all required). -/
def run_all_gates (stage : String)
    (outcome : GateType → Option GateResult) : List GateResult :=
  let step := fun (results : List GateResult) (g : GateType × Bool) =>
    (run_gate g.1 g.2 (outcome g.1) results).2
  if stage == "review" then
    [(GateType.linting, true), (GateType.typeChecking, true),
     (GateType.complexity, true)].foldl step []
  else if stage == "tests" then
    [(GateType.coverage, true), (GateType.mutation, false)].foldl step []
  else if stage == "merge" then
    [(GateType.sast, true), (GateType.dependencyScan, true),
     (GateType.secretDetection, true)].foldl step []
  else []

/-- `QualityGateRunner.all_gates_passed`: scan the recorded results and
return `false` on any `FAIL` or `ERROR` — the loop consults only the
status, never whether the gate was required. -/
def all_gates_passed (results : List GateResult) : Bool :=
  results.all (fun r =>
    !(r.status == GateStatus.fail) && !(r.status == GateStatus.error))

/-- The pass rule as the specification words it, for comparison with
`all_gates_passed`: a stage passes when no *required* gate's result is
`FAIL` or `ERROR`; an optional gate's `FAIL`/`ERROR` is treated as `SKIP`.
Each result is paired with its required flag. -/
def spec_all_required_passed (results : List (GateResult × Bool)) : Bool :=
  results.all (fun p =>
    if p.2 then
      !(p.1.status == GateStatus.fail) && !(p.1.status == GateStatus.error)
    else true)

/-! ### Event-queue traces

For the at-most-once delivery guarantee the three queue operations are
closed into a small operation language and executed against the store;
`publish` carries the UUID drawn by `uuid.uuid4()` and the wall-clock
instant of the call. -/

/-- The status of the first event carrying the given id. -/
def event_statusOf (s : DB) (eventId : String) : Option EventStatus :=
  (s.events.find? (fun e => e.id == eventId)).map (fun e => e.status)

/-- One event-queue operation. -/
inductive QOp where
  | publish (eventId agentId eventType : String)
      (payload : List (String × PVal)) (now : String)
  | consume (agentId : String) (limit : Nat)
  | ack (eventId : String) (success : Bool)

/-- Execute one queue operation. -/
def execQOp (s : DB) : QOp → DB
  | .publish eid aid ty pl now =>
    publish_event { s with now := now } eid aid ty pl
  | .consume aid limit => (consume_events s aid limit).2
  | .ack eid success => acknowledge_event s eid success

/-- How often the event id is returned by the `consume` calls of the
operation sequence. -/
def deliveredCount (s : DB) : List QOp → String → Nat
  | [], _ => 0
  | op :: ops, eid =>
    (match op with
     | .consume aid limit =>
       if ((consume_events s aid limit).1.map (fun e => e.id)).contains eid
       then 1 else 0
     | _ => 0) + deliveredCount (execQOp s op) ops eid

/-- Every `publish` of the sequence draws an id not present in the store at
that point — what `uuid.uuid4()` provides. -/
def FreshPublishes (s : DB) : List QOp → Prop
  | [] => True
  | op :: ops =>
    (match op with
     | .publish eid _ _ _ _ => ∀ e ∈ s.events, e.id ≠ eid
     | _ => True) ∧ FreshPublishes (execQOp s op) ops

/-- The event id is present and every event carrying it is past `pending` —
the state of an id after it has been consumed. -/
def ConsumedInv (s : DB) (eventId : String) : Prop :=
  (∃ e ∈ s.events, e.id = eventId) ∧
  ∀ e ∈ s.events, e.id = eventId → e.status ≠ EventStatus.pending

/-! ### Concrete states used by witnesses and counterexamples -/

/-- A queue with one pending event for `cab`, one already-`done` event for
`cab`, and a pending event for another agent. -/
def c4DB : DB :=
  { features := [], convoys := [], tasks := [],
    events :=
      [{ id := "evt-a", agentId := "cab", eventType := "ROUTE_TASK",
         payload := [], status := .pending,
         createdAt := "2026-01-01T00:01:00", processedAt := none },
       { id := "evt-c", agentId := "cab", eventType := "ROUTE_TASK",
         payload := [], status := .done,
         createdAt := "2026-01-01T00:00:30",
         processedAt := some "2026-01-01T00:00:45" },
       { id := "evt-d", agentId := "developer", eventType := "REWORK_NEEDED",
         payload := [], status := .pending,
         createdAt := "2026-01-01T00:00:10", processedAt := none }],
    sessions := [], now := "2026-01-01T00:03:00" }

/-- A database with one crashed and one active developer session. -/
def hbDB : DB :=
  { features := [], convoys := [], tasks := [], events := [],
    sessions :=
      [{ agentId := "dev-001", agentType := "developer",
         convoyId := none, currentTask := none, worktree := none,
         status := .crashed, lastHeartbeat := "2026-01-01T00:00:00",
         startedAt := "2026-01-01T00:00:00", crashedAt := none },
       { agentId := "dev-002", agentType := "developer",
         convoyId := none, currentTask := none, worktree := none,
         status := .active, lastHeartbeat := "2026-01-01T00:00:00",
         startedAt := "2026-01-01T00:00:00", crashedAt := none }],
    now := "2026-01-01T00:05:00" }

/-- A database with one `done` event, already acknowledged at 00:05. -/
def ackDB : DB :=
  { features := [], convoys := [], tasks := [],
    events := [{ id := "evt-1", agentId := "developer",
                 eventType := "ROUTE_TASK", payload := [],
                 status := .done, createdAt := "2026-01-01T00:00:00",
                 processedAt := some "2026-01-01T00:05:00" }],
    sessions := [], now := "2026-01-02T00:00:00" }

/-- The result `_run_coverage_gate` returns when coverage meets the
threshold. -/
def covPassResult : GateResult :=
  { gateType := .coverage, status := .pass,
    message := "Coverage 85.0% meets threshold 80%" }

/-- The result `_run_mutation_gate` returns — without raising — when the
mutation score is below the threshold. -/
def mutFailResult : GateResult :=
  { gateType := .mutation, status := .fail,
    message := "Mutation score 50.0% below threshold 80%" }

/-- Tool outcomes for a `tests` stage run where coverage passes and the
mutation gate reports a low score. -/
def testsStageOutcome : GateType → Option GateResult := fun g =>
  match g with
  | .coverage => some covPassResult
  | .mutation => some mutFailResult
  | _ => none

/-- A `todo`, unassigned task. -/
def claimT1 : Task :=
  { id := "T1", convoyId := "convoy-1", title := "Implement parser",
    description := "Implement the tasks parser", filePath := "src/parser.py",
    status := .todo, priority := "P1", assignee := none,
    failureReason := none, failureCount := 0,
    createdAt := "2026-01-01T00:00:00", startedAt := none,
    completedAt := none }

/-- A database holding just the task `T1` in `todo`. -/
def claimDB : DB :=
  { features := [], convoys := [], tasks := [claimT1], events := [],
    sessions := [], now := "2026-01-01T09:00:00" }

/-- A database with feature `feat-1` and one non-`done` convoy `convoy-a`
touching `src/a.py` and `src/b.py`. -/
def c5DB : DB :=
  { features := [{ id := "feat-1", name := "Feature One",
                   specPath := "specs/feat-1", status := .inProgress,
                   createdAt := "2026-01-01T00:00:00",
                   startedAt := some "2026-01-01T01:00:00",
                   completedAt := none }],
    convoys := [{ id := "convoy-a", featureId := "feat-1",
                  story := "Story A", priority := "P1",
                  files := ["src/a.py", "src/b.py"], dependencies := [],
                  status := .available, assignee := none,
                  createdAt := "2026-01-01T01:00:00", startedAt := none,
                  completedAt := none }],
    tasks := [], events := [], sessions := [],
    now := "2026-01-01T02:00:00" }

/-- The task `T2` after two earlier rejections: `in_review` before a third
CAB verdict, still assigned to `dev-001`. -/
def c1T2 : Task :=
  { id := "T2", convoyId := "convoy-1", title := "Fix login",
    description := "Fix the login flow", filePath := "src/login.py",
    status := .inReview, priority := "P1", assignee := some "dev-001",
    failureReason := some "previous lint errors", failureCount := 2,
    createdAt := "2026-01-01T00:00:00",
    startedAt := some "2026-01-01T01:00:00", completedAt := none }

/-- A database holding `T2` on the eve of its third rejection. -/
def c1DB : DB :=
  { features := [], convoys := [], tasks := [c1T2], events := [],
    sessions := [], now := "2026-01-01T03:00:00" }

/-- A feature with a `done` convoy `convoy-b0` and a `blocked` convoy
`convoy-a0` that depends on it — the S3 dependency-unblock scenario. -/
def c8DB : DB :=
  { features := [{ id := "feat-1", name := "Feature One",
                   specPath := "specs/feat-1", status := .inProgress,
                   createdAt := "2026-01-01T00:00:00",
                   startedAt := some "2026-01-01T01:00:00",
                   completedAt := none }],
    convoys := [{ id := "convoy-b0", featureId := "feat-1",
                  story := "Story B", priority := "P1",
                  files := ["src/b.py"], dependencies := [],
                  status := .done, assignee := none,
                  createdAt := "2026-01-01T01:00:00", startedAt := none,
                  completedAt := some "2026-01-01T05:00:00" },
                { id := "convoy-a0", featureId := "feat-1",
                  story := "Story A", priority := "P1",
                  files := ["src/a.py"], dependencies := ["convoy-b0"],
                  status := .blocked, assignee := none,
                  createdAt := "2026-01-01T01:30:00", startedAt := none,
                  completedAt := none }],
    tasks := [], events := [], sessions := [],
    now := "2026-01-01T06:00:00" }

/-! ## Helper lemmas -/

theorem mem_insertLe {α} (le : α → α → Bool) (x : α) (l : List α) (a : α) :
    a ∈ insertLe le x l ↔ a = x ∨ a ∈ l := by
  induction l with
  | nil => simp [insertLe]
  | cons y ys ih =>
    simp only [insertLe]
    by_cases h : le x y = true
    · simp [h]
    · simp only [if_neg h, List.mem_cons, ih]
      tauto

theorem mem_sortLe {α} (le : α → α → Bool) (l : List α) (a : α) :
    a ∈ sortLe le l ↔ a ∈ l := by
  induction l with
  | nil => simp [sortLe]
  | cons x xs ih =>
    simp only [sortLe, mem_insertLe, ih, List.mem_cons]

theorem pairwise_insertLe {α} (le : α → α → Bool)
    (htot : ∀ a b, le a b = true ∨ le b a = true)
    (htrans : ∀ a b c, le a b = true → le b c = true → le a c = true)
    (x : α) (l : List α) (hl : l.Pairwise (fun a b => le a b = true)) :
    (insertLe le x l).Pairwise (fun a b => le a b = true) := by
  induction l with
  | nil => simp [insertLe]
  | cons y ys ih =>
    rcases List.pairwise_cons.mp hl with ⟨hy, hys⟩
    simp only [insertLe]
    by_cases hxy : le x y = true
    · simp only [if_pos hxy]
      refine List.pairwise_cons.mpr ⟨?_, hl⟩
      intro z hz
      rcases List.mem_cons.mp hz with rfl | hz
      · exact hxy
      · exact htrans x y z hxy (hy z hz)
    · simp only [if_neg hxy]
      refine List.pairwise_cons.mpr ⟨?_, ih hys⟩
      intro z hz
      rcases (mem_insertLe le x ys z).mp hz with rfl | hz
      · rcases htot z y with h | h
        · exact absurd h hxy
        · exact h
      · exact hy z hz

theorem pairwise_sortLe {α} (le : α → α → Bool)
    (htot : ∀ a b, le a b = true ∨ le b a = true)
    (htrans : ∀ a b c, le a b = true → le b c = true → le a c = true)
    (l : List α) :
    (sortLe le l).Pairwise (fun a b => le a b = true) := by
  induction l with
  | nil => simp [sortLe]
  | cons x xs ih => exact pairwise_insertLe le htot htrans x (sortLe le xs) ih

theorem sortLe_head_le {α} (le : α → α → Bool)
    (htot : ∀ a b, le a b = true ∨ le b a = true)
    (htrans : ∀ a b c, le a b = true → le b c = true → le a c = true)
    (l : List α) (c : α) (h : (sortLe le l).head? = some c) :
    ∀ x ∈ l, c = x ∨ le c x = true := by
  intro x hx
  have hx2 : x ∈ sortLe le l := (mem_sortLe le l x).mpr hx
  cases hsl : sortLe le l with
  | nil => rw [hsl] at h; cases h
  | cons c0 tail =>
    rw [hsl] at h
    injection h with h
    subst h
    rw [hsl] at hx2
    rcases List.mem_cons.mp hx2 with rfl | hx2
    · left; rfl
    · right
      have hp := pairwise_sortLe le htot htrans l
      rw [hsl] at hp
      exact (List.pairwise_cons.mp hp).1 x hx2

theorem sortLe_head_mem {α} (le : α → α → Bool) (l : List α) (c : α)
    (h : (sortLe le l).head? = some c) : c ∈ l := by
  apply (mem_sortLe le l c).mp
  cases hsl : sortLe le l with
  | nil => rw [hsl] at h; cases h
  | cons c0 tail =>
    rw [hsl] at h
    injection h with h
    subst h
    exact List.mem_cons_self c0 tail

theorem find?_map_key {α} (f : α → α) (p : α → Bool) (l : List α)
    (hp : ∀ a, p (f a) = p a) :
    (l.map f).find? p = (l.find? p).map f := by
  induction l with
  | nil => rfl
  | cons a l ih =>
    simp only [List.map_cons]
    by_cases hpa : p a = true
    · rw [List.find?_cons_of_pos _ (by rw [hp a]; exact hpa),
          List.find?_cons_of_pos _ hpa]
      rfl
    · rw [List.find?_cons_of_neg _ (by rw [hp a]; exact hpa),
          List.find?_cons_of_neg _ hpa]
      exact ih

theorem get_task_map (s : DB) (tid : String) (f : Task → Task)
    (hf : ∀ a, (f a).id = a.id) :
    get_task { s with tasks := s.tasks.map f } tid =
      (get_task s tid).map f := by
  unfold get_task
  apply find?_map_key
  intro a
  rw [hf a]

theorem get_convoy_map (s : DB) (cid : String) (f : Convoy → Convoy)
    (hf : ∀ a, (f a).id = a.id) :
    get_convoy { s with convoys := s.convoys.map f } cid =
      (get_convoy s cid).map f := by
  unfold get_convoy
  apply find?_map_key
  intro a
  rw [hf a]

theorem convoyLe_refl (a : Convoy) : convoyLe a a = true := by
  simp [convoyLe]

theorem convoyLe_total (a b : Convoy) :
    convoyLe a b = true ∨ convoyLe b a = true := by
  unfold convoyLe
  rcases lt_trichotomy a.priority b.priority with h | h | h
  · left; simp [h]
  · rcases le_total a.createdAt b.createdAt with h2 | h2
    · left; simp [h, h2]
    · right; simp [h, h2]
  · right; simp [h]

theorem convoyLe_trans (a b c : Convoy) (hab : convoyLe a b = true)
    (hbc : convoyLe b c = true) : convoyLe a c = true := by
  unfold convoyLe at *
  simp only [Bool.or_eq_true, Bool.and_eq_true, decide_eq_true_eq,
    beq_iff_eq] at *
  rcases hab with h1 | ⟨h1, h1a⟩ <;> rcases hbc with h2 | ⟨h2, h2a⟩
  · left; exact lt_trans h1 h2
  · left; rwa [← h2]
  · left; rwa [h1]
  · right; exact ⟨h1.trans h2, le_trans h1a h2a⟩

theorem find?_key_eq_of_mem_nodup {α} (key : α → String) (l : List α)
    (hnd : (l.map key).Nodup) (c : α) (hc : c ∈ l) :
    l.find? (fun x => key x == key c) = some c := by
  induction l with
  | nil => cases hc
  | cons a l ih =>
    rw [List.map_cons, List.nodup_cons] at hnd
    rcases List.mem_cons.mp hc with rfl | hc
    · rw [List.find?_cons_of_pos _ (by simp)]
    · have hne : key a ≠ key c := by
        intro he
        exact hnd.1 (he ▸ List.mem_map_of_mem key hc)
      rw [List.find?_cons_of_neg _ (by simpa using hne)]
      exact ih hnd.2 hc

theorem forall₂_map_self {α} (g : α → α) (R : α → α → Prop) (l : List α)
    (h : ∀ a ∈ l, R a (g a)) : List.Forall₂ R l (l.map g) := by
  induction l with
  | nil => simp
  | cons a l ih =>
    simp only [List.map_cons]
    exact List.Forall₂.cons (h a (List.mem_cons_self a l))
      (ih fun a ha => h a (List.mem_cons_of_mem _ ha))

theorem eventLe_total (a b : Event) :
    eventLe a b = true ∨ eventLe b a = true := by
  unfold eventLe
  rcases le_total a.createdAt b.createdAt with h | h
  · left; exact decide_eq_true h
  · right; exact decide_eq_true h

theorem eventLe_trans (a b c : Event) (hab : eventLe a b = true)
    (hbc : eventLe b c = true) : eventLe a c = true := by
  unfold eventLe at *
  exact decide_eq_true
    (le_trans (of_decide_eq_true hab) (of_decide_eq_true hbc))

theorem consume_events_fst (s : DB) (aid : String) (limit : Nat) :
    (consume_events s aid limit).1 =
      (sortLe eventLe (s.events.filter
        (fun e => e.agentId == aid &&
          e.status == EventStatus.pending))).take limit := by
  unfold consume_events
  dsimp only
  split <;> rfl

theorem consume_events_mem (s : DB) (aid : String) (limit : Nat) (e : Event)
    (he : e ∈ (consume_events s aid limit).1) :
    e ∈ s.events ∧ e.agentId = aid ∧ e.status = EventStatus.pending := by
  rw [consume_events_fst] at he
  have h1 := List.mem_of_mem_take he
  rw [mem_sortLe] at h1
  have h2 := List.mem_filter.mp h1
  have h3 := h2.2
  rw [Bool.and_eq_true, beq_iff_eq, beq_iff_eq] at h3
  exact ⟨h2.1, h3.1, h3.2⟩

theorem consume_events_marks (s : DB) (aid : String) (limit : Nat)
    (e : Event) (he : e ∈ (consume_events s aid limit).1) :
    event_statusOf (consume_events s aid limit).2 e.id =
      some EventStatus.processing := by
  have hmem : e ∈ s.events := (consume_events_mem s aid limit e he).1
  have hsel : e ∈ (sortLe eventLe (s.events.filter
      (fun x => x.agentId == aid &&
        x.status == EventStatus.pending))).take limit := by
    rw [consume_events_fst] at he
    exact he
  unfold consume_events
  dsimp only
  split
  · rename_i hemp
    rw [List.isEmpty_iff] at hemp
    rw [hemp] at hsel
    cases hsel
  · unfold event_statusOf
    rw [find?_map_key _ _ _ (fun a => by split <;> rfl)]
    cases hfind : s.events.find? (fun x => x.id == e.id) with
    | none =>
      exfalso
      have : (s.events.find? (fun x => x.id == e.id)).isSome :=
        List.find?_isSome.mpr ⟨e, hmem, by simp⟩
      rw [hfind] at this
      cases this
    | some e2 =>
      have hid2 := List.find?_some hfind
      rw [beq_iff_eq] at hid2
      have hcont : (((sortLe eventLe (s.events.filter
          (fun x => x.agentId == aid &&
            x.status == EventStatus.pending))).take limit).map
          (fun x => x.id)).contains e2.id = true := by
        rw [hid2]
        exact List.elem_iff.mpr (List.mem_map_of_mem _ hsel)
      simp only [Option.map_some']
      rw [if_pos hcont]

theorem execQOp_preserves_consumedInv (s : DB) (eid : String) (op : QOp)
    (hfresh : match op with
      | .publish pid _ _ _ _ => ∀ e ∈ s.events, e.id ≠ pid
      | _ => True)
    (hinv : ConsumedInv s eid) : ConsumedInv (execQOp s op) eid := by
  obtain ⟨⟨e0, he0, he0id⟩, hall⟩ := hinv
  cases op with
  | publish pid aid ty pl now =>
    refine ⟨⟨e0, List.mem_append_left _ he0, he0id⟩, ?_⟩
    intro e he heid
    rcases List.mem_append.mp he with h | h
    · exact hall e h heid
    · exfalso
      rw [List.mem_singleton] at h
      subst h
      exact (hfresh e0 he0) (he0id.trans heid.symm)
  | consume aid limit =>
    show ConsumedInv (consume_events s aid limit).2 eid
    unfold consume_events
    dsimp only
    split
    · exact ⟨⟨e0, he0, he0id⟩, hall⟩
    · constructor
      · refine ⟨_, List.mem_map_of_mem _ he0, ?_⟩
        split <;> simp [he0id]
      · intro e he heid
        rcases List.mem_map.mp he with ⟨u, hu, rfl⟩
        revert heid
        split <;> intro heid
        · simp
        · exact hall u hu heid
  | ack aeid success =>
    show ConsumedInv (acknowledge_event s aeid success) eid
    constructor
    · refine ⟨_, List.mem_map_of_mem _ he0, ?_⟩
      split <;> simp [he0id]
    · intro e he heid
      rcases List.mem_map.mp he with ⟨u, hu, rfl⟩
      revert heid
      split <;> intro heid
      · cases success <;> simp
      · exact hall u hu heid

theorem consume_establishes_inv (s : DB) (aid : String) (limit : Nat)
    (eid : String)
    (hc : (((consume_events s aid limit).1.map
      (fun e => e.id)).contains eid) = true) :
    ConsumedInv (consume_events s aid limit).2 eid := by
  rcases List.mem_map.mp (List.elem_iff.mp hc) with ⟨e, he, heid⟩
  have hprops := consume_events_mem s aid limit e he
  have hsel : e ∈ (sortLe eventLe (s.events.filter
      (fun x => x.agentId == aid &&
        x.status == EventStatus.pending))).take limit := by
    rw [consume_events_fst] at he
    exact he
  unfold consume_events
  dsimp only
  split
  · rename_i hemp
    rw [List.isEmpty_iff] at hemp
    rw [hemp] at hsel
    cases hsel
  · have hcont : ∀ u : Event, u.id = eid →
        ((((sortLe eventLe (s.events.filter
          (fun x => x.agentId == aid &&
            x.status == EventStatus.pending))).take limit).map
          (fun x => x.id)).contains u.id) = true := by
      intro u hu
      rw [hu, ← heid]
      exact List.elem_iff.mpr (List.mem_map_of_mem _ hsel)
    constructor
    · refine ⟨_, List.mem_map_of_mem _ hprops.1, ?_⟩
      rw [if_pos (hcont e heid)]
      exact heid
    · intro u hu huid
      rcases List.mem_map.mp hu with ⟨v, hv, rfl⟩
      revert huid
      split <;> intro huid
      · simp
      · rename_i hcond
        exact absurd (hcont v huid) hcond

theorem deliveredCount_eq_zero (s : DB) (ops : List QOp) (eid : String)
    (hfresh : FreshPublishes s ops) (hinv : ConsumedInv s eid) :
    deliveredCount s ops eid = 0 := by
  induction ops generalizing s with
  | nil => rfl
  | cons op ops ih =>
    have hf1 := hfresh.1
    have hf2 : FreshPublishes (execQOp s op) ops := hfresh.2
    have hnext := execQOp_preserves_consumedInv s eid op hf1 hinv
    have hrest := ih (execQOp s op) hf2 hnext
    cases op with
    | publish pid aid ty pl now =>
      unfold deliveredCount
      rw [hrest]
    | ack aeid success =>
      unfold deliveredCount
      rw [hrest]
    | consume aid limit =>
      unfold deliveredCount
      dsimp only
      rw [hrest]
      have hnc : ¬ (((consume_events s aid limit).1.map
          (fun e => e.id)).contains eid) = true := by
        intro hcc
        rcases List.mem_map.mp (List.elem_iff.mp hcc) with ⟨e, he, heid⟩
        have hp := consume_events_mem s aid limit e he
        exact (hinv.2 e hp.1 heid) hp.2.2
      rw [if_neg hnc]

theorem deliveredCount_le_one (s : DB) (ops : List QOp) (eid : String)
    (hfresh : FreshPublishes s ops) : deliveredCount s ops eid ≤ 1 := by
  induction ops generalizing s with
  | nil => exact Nat.zero_le 1
  | cons op ops ih =>
    have hf2 : FreshPublishes (execQOp s op) ops := hfresh.2
    cases op with
    | publish pid aid ty pl now =>
      unfold deliveredCount
      rw [Nat.zero_add]
      exact ih _ hf2
    | ack aeid success =>
      unfold deliveredCount
      rw [Nat.zero_add]
      exact ih _ hf2
    | consume aid limit =>
      unfold deliveredCount
      dsimp only
      by_cases hc : (((consume_events s aid limit).1.map
          (fun e => e.id)).contains eid) = true
      · rw [if_pos hc]
        have hinv := consume_establishes_inv s aid limit eid hc
        rw [deliveredCount_eq_zero _ ops eid hf2 hinv]
      · rw [if_neg hc, Nat.zero_add]
        exact ih _ hf2

/-! ## Claims -/

/-- C3: a task status transition is accepted exactly for the nine legal
pairs of the state machine; any other request fails and leaves the state
unchanged, and `done` has no outgoing transitions. -/
theorem aisprint_c3_state_machine :
    (∀ f t : TaskStatus, validate_task_transition f t = true ↔
      (f, t) ∈ ([(.todo, .inProgress), (.inProgress, .inReview),
        (.inReview, .inTests), (.inReview, .inProgress),
        (.inTests, .inDocs), (.inTests, .inProgress),
        (.inDocs, .done), (.inDocs, .inProgress),
        (.inProgress, .todo)] : List (TaskStatus × TaskStatus))) ∧
    (∀ t : TaskStatus, validate_task_transition .done t = false) ∧
    (∀ s tid toSt, (transition_task_status s tid toSt).1 = false →
      (transition_task_status s tid toSt).2 = s) ∧
    (∀ s tid toSt tk, get_task s tid = some tk →
      ((transition_task_status s tid toSt).1 = true ↔
        validate_task_transition tk.status toSt = true)) := by
  refine ⟨by decide, by decide, ?_, ?_⟩
  · intro s tid toSt h
    unfold transition_task_status at h ⊢
    cases hg : get_task s tid with
    | none => rfl
    | some tk =>
      rw [hg] at h
      by_cases hv : validate_task_transition tk.status toSt = true
      · simp [hv] at h
      · simp [hv]
  · intro s tid toSt tk hg
    unfold transition_task_status
    rw [hg]
    by_cases hv : validate_task_transition tk.status toSt = true
    · simp [hv]
    · simp [hv]

/-- C3 witness: on a one-task database in `in_review`, the CAB approval
transition succeeds and an illegal `todo → done` jump fails unchanged. -/
theorem aisprint_c3_state_machine_witness :
    validate_task_transition .inReview .inTests = true ∧
    validate_task_transition .done .todo = false ∧
    (∀ s : DB, (transition_task_status s "T1" .done).1 = false →
      (transition_task_status s "T1" .done).2 = s) := by
  refine ⟨?_, ?_, ?_⟩
  · have h := (aisprint_c3_state_machine.1 .inReview .inTests).mpr (by decide)
    exact h
  · exact aisprint_c3_state_machine.2.1 .todo
  · intro s h
    exact aisprint_c3_state_machine.2.2.1 s "T1" .done h

/-- C9: a convoy with no tasks is never marked done — the completion check
returns `false` and leaves the state unchanged; likewise for a feature with
no convoys. -/
theorem aisprint_c9_empty_not_complete :
    (∀ s cid, list_tasks_by_convoy s cid = [] →
      check_convoy_completion s cid = (false, s)) ∧
    (∀ s fid, list_convoys_by_feature s fid = [] →
      check_feature_completion s fid = (false, s)) := by
  constructor
  · intro s cid h
    unfold check_convoy_completion
    rw [h]
    rfl
  · intro s fid h
    unfold check_feature_completion
    rw [h]
    rfl

/-- C9 witness: on the empty database both completion checks return
`false` without touching the state. -/
theorem aisprint_c9_empty_not_complete_witness :
    check_convoy_completion
      { features := [], convoys := [], tasks := [], events := [],
        sessions := [], now := "2026-01-01T00:00:00" } "convoy-1" =
      (false,
       { features := [], convoys := [], tasks := [], events := [],
         sessions := [], now := "2026-01-01T00:00:00" }) ∧
    check_feature_completion
      { features := [], convoys := [], tasks := [], events := [],
        sessions := [], now := "2026-01-01T00:00:00" } "feat-1" =
      (false,
       { features := [], convoys := [], tasks := [], events := [],
         sessions := [], now := "2026-01-01T00:00:00" }) :=
  ⟨aisprint_c9_empty_not_complete.1 _ "convoy-1" rfl,
   aisprint_c9_empty_not_complete.2 _ "feat-1" rfl⟩

/-- C10: `record_heartbeat` refreshes `last_heartbeat` only on a session
that matches the agent id and is `active`; a crashed, hung or stuck session
row is entirely unchanged, and even on the active session no field other
than `last_heartbeat` changes. -/
theorem aisprint_c10_heartbeat_frame (s : DB) (agentId : String) :
    List.Forall₂ (fun old new =>
      (old.status ≠ SessionStatus.active → new = old) ∧
      (old.agentId ≠ agentId → new = old) ∧
      (old.agentId = agentId ∧ old.status = SessionStatus.active →
        new.lastHeartbeat = s.now) ∧
      (new.agentId = old.agentId ∧ new.agentType = old.agentType ∧
       new.convoyId = old.convoyId ∧ new.currentTask = old.currentTask ∧
       new.worktree = old.worktree ∧ new.status = old.status ∧
       new.startedAt = old.startedAt ∧ new.crashedAt = old.crashedAt))
      s.sessions (record_heartbeat s agentId).sessions := by
  apply forall₂_map_self
  intro sess hmem
  by_cases hid : sess.agentId = agentId <;>
    by_cases hst : sess.status = SessionStatus.active <;>
    simp [hid, hst]

/-- C10 witness: on a database with one crashed and one active session,
the heartbeat leaves the crashed row unchanged and restamps the active
row's `last_heartbeat`. -/
theorem aisprint_c10_heartbeat_frame_witness :
    List.Forall₂ (fun old new =>
      (old.status ≠ SessionStatus.active → new = old) ∧
      (old.agentId ≠ "dev-001" → new = old) ∧
      (old.agentId = "dev-001" ∧ old.status = SessionStatus.active →
        new.lastHeartbeat = hbDB.now) ∧
      (new.agentId = old.agentId ∧ new.agentType = old.agentType ∧
       new.convoyId = old.convoyId ∧ new.currentTask = old.currentTask ∧
       new.worktree = old.worktree ∧ new.status = old.status ∧
       new.startedAt = old.startedAt ∧ new.crashedAt = old.crashedAt))
      hbDB.sessions (record_heartbeat hbDB "dev-001").sessions ∧
    (record_heartbeat hbDB "dev-001").sessions.map
      (fun sess => (sess.lastHeartbeat, sess.status)) =
      [("2026-01-01T00:00:00", SessionStatus.crashed),
       ("2026-01-01T00:00:00", SessionStatus.active)] :=
  ⟨aisprint_c10_heartbeat_frame hbDB "dev-001", by rfl⟩

/-- C6: the claim says an optional gate's FAIL does not make the stage
fail, and `all_gates_passed`'s own docstring says it checks the *required*
gates — but the recorded results carry no required flag and the loop
returns `false` on any FAIL/ERROR.  At the failing input (stage `tests`,
coverage PASS, optional mutation gate FAIL on a low score),
`all_gates_passed` returns `false` although no required gate failed. -/
theorem aisprint_c6_optional_gate_blocks :
    run_all_gates "tests" testsStageOutcome = [covPassResult, mutFailResult] ∧
    all_gates_passed (run_all_gates "tests" testsStageOutcome) = false ∧
    spec_all_required_passed
      [(covPassResult, true), (mutFailResult, false)] = true :=
  ⟨rfl, rfl, rfl⟩

/-- C7 counterexample: acknowledging the already-`done` event `evt-1` is
not a no-op — a success ack restamps `processed_at`, and a failure ack
additionally flips the status to `failed`. -/
theorem aisprint_c7_ack_done_changes_row :
    (acknowledge_event ackDB "evt-1" true).events ≠ ackDB.events ∧
    (acknowledge_event ackDB "evt-1" true).events.map
      (fun e => e.processedAt) = [some "2026-01-02T00:00:00"] ∧
    (acknowledge_event ackDB "evt-1" false).events.map
      (fun e => e.status) = [EventStatus.failed] := by
  refine ⟨?_, rfl, rfl⟩
  decide

/-- C7 amended: `acknowledge_event` unconditionally sets the status of
every event matching the id to `done` (success) or `failed` and stamps
`processed_at` with the current time, whatever the prior status was;
non-matching events and the other tables are untouched. -/
theorem aisprint_c7_ack_unconditional (s : DB) (eventId : String)
    (success : Bool) :
    List.Forall₂ (fun old new =>
      (old.id ≠ eventId → new = old) ∧
      (old.id = eventId →
        new = { old with
                  status := if success then EventStatus.done
                            else EventStatus.failed,
                  processedAt := some s.now }))
      s.events (acknowledge_event s eventId success).events ∧
    (acknowledge_event s eventId success).tasks = s.tasks ∧
    (acknowledge_event s eventId success).convoys = s.convoys ∧
    (acknowledge_event s eventId success).sessions = s.sessions := by
  refine ⟨?_, rfl, rfl, rfl⟩
  apply forall₂_map_self
  intro e he
  by_cases hid : e.id = eventId <;> simp [hid]

/-- C7 witness: the amended claim evaluated on the `done` event `evt-1`
of `ackDB` — the failure ack rewrites the row to `failed` with a fresh
`processed_at`. -/
theorem aisprint_c7_ack_unconditional_witness :
    List.Forall₂ (fun old new =>
      (old.id ≠ "evt-1" → new = old) ∧
      (old.id = "evt-1" →
        new = { old with
                  status := if false then EventStatus.done
                            else EventStatus.failed,
                  processedAt := some ackDB.now }))
      ackDB.events (acknowledge_event ackDB "evt-1" false).events ∧
    (acknowledge_event ackDB "evt-1" false).events.map
      (fun e => (e.status, e.processedAt)) =
      [(EventStatus.failed, some "2026-01-02T00:00:00")] :=
  ⟨(aisprint_c7_ack_unconditional ackDB "evt-1" false).1, by rfl⟩

/-- C2: `claim_task_atomic` returns `true` exactly when the task exists in
`todo` with no assignee, in which case the task becomes `in_progress` with
the caller as assignee and `started_at` stamped; in every other case it
returns `false` with the state unchanged.  Hence of two successive claims
on a task initially in `todo`, exactly the first succeeds and the task ends
assigned to the winner in `in_progress`. -/
theorem aisprint_c2_atomic_claim :
    (∀ s tid agent,
      ((claim_task_atomic s tid agent).1 = true ↔
        ∃ t, get_task s tid = some t ∧ t.status = TaskStatus.todo ∧
          t.assignee = none)) ∧
    (∀ s tid agent, (claim_task_atomic s tid agent).1 = false →
      (claim_task_atomic s tid agent).2 = s) ∧
    (∀ s tid agent t, get_task s tid = some t →
      (claim_task_atomic s tid agent).1 = true →
      get_task (claim_task_atomic s tid agent).2 tid =
        some { t with status := .inProgress, assignee := some agent,
                      startedAt := some s.now }) ∧
    (∀ s tid a1 a2 t, get_task s tid = some t →
      t.status = TaskStatus.todo → t.assignee = none →
      (claim_task_atomic s tid a1).1 = true ∧
      (claim_task_atomic (claim_task_atomic s tid a1).2 tid a2).1 = false ∧
      (claim_task_atomic (claim_task_atomic s tid a1).2 tid a2).2 =
        (claim_task_atomic s tid a1).2 ∧
      get_task (claim_task_atomic
          (claim_task_atomic s tid a1).2 tid a2).2 tid =
        some { t with status := .inProgress, assignee := some a1,
                      startedAt := some s.now }) := by
  have hiff : ∀ s tid agent,
      ((claim_task_atomic s tid agent).1 = true ↔
        ∃ t, get_task s tid = some t ∧ t.status = TaskStatus.todo ∧
          t.assignee = none) := by
    intro s tid agent
    unfold claim_task_atomic
    cases hg : get_task s tid with
    | none => simp
    | some row =>
      by_cases h1 : row.status = TaskStatus.todo <;>
        by_cases h2 : row.assignee = none <;>
        simp [h1, h2]
  have hfalse : ∀ s tid agent, (claim_task_atomic s tid agent).1 = false →
      (claim_task_atomic s tid agent).2 = s := by
    intro s tid agent h
    unfold claim_task_atomic at h ⊢
    cases hg : get_task s tid with
    | none => rfl
    | some row =>
      rw [hg] at h
      by_cases hc : (row.status == TaskStatus.todo &&
          row.assignee == none) = true
      · simp [hc] at h
      · simp [hc]
  have hpost : ∀ s tid agent t, get_task s tid = some t →
      (claim_task_atomic s tid agent).1 = true →
      get_task (claim_task_atomic s tid agent).2 tid =
        some { t with status := .inProgress, assignee := some agent,
                      startedAt := some s.now } := by
    intro s tid agent t hg htrue
    unfold claim_task_atomic at htrue ⊢
    rw [hg] at htrue ⊢
    by_cases hc : (t.status == TaskStatus.todo && t.assignee == none) = true
    · simp only [hc, if_pos]
      unfold get_task at hg ⊢
      have hid := List.find?_some hg
      rw [find?_map_key _ _ _ (fun a => by
        by_cases ha : (a.id == tid) = true <;> simp [ha])]
      rw [hg]
      simp [hid]
      exact fun h => absurd (by simpa using hid) h
    · simp [hc] at htrue
  refine ⟨hiff, hfalse, hpost, ?_⟩
  intro s tid a1 a2 t hg h1 h2
  have hc1 : (claim_task_atomic s tid a1).1 = true :=
    (hiff s tid a1).mpr ⟨t, hg, h1, h2⟩
  have hp1 := hpost s tid a1 t hg hc1
  have hc2 : (claim_task_atomic (claim_task_atomic s tid a1).2 tid a2).1 =
      false := by
    cases hb : (claim_task_atomic (claim_task_atomic s tid a1).2 tid a2).1
    · rfl
    · exfalso
      rcases (hiff _ tid a2).mp hb with ⟨t2, hg2, hst2, _⟩
      rw [hp1] at hg2
      injection hg2 with hg2
      rw [← hg2] at hst2
      cases hst2
  have hs2 := hfalse _ tid a2 hc2
  exact ⟨hc1, hc2, hs2, by rw [hs2]; exact hp1⟩

/-- C2 witness: on `claimDB`, `dev-001` wins the claim on `T1`, a second
claim by `dev-002` fails, and `T1` ends `in_progress` assigned to
`dev-001`. -/
theorem aisprint_c2_atomic_claim_witness :
    (claim_task_atomic claimDB "T1" "dev-001").1 = true ∧
    (claim_task_atomic
      (claim_task_atomic claimDB "T1" "dev-001").2 "T1" "dev-002").1 =
      false ∧
    (get_task (claim_task_atomic
        (claim_task_atomic claimDB "T1" "dev-001").2 "T1" "dev-002").2
        "T1").map (fun t => (t.status, t.assignee)) =
      some (TaskStatus.inProgress, some "dev-001") := by
  obtain ⟨h1, h2, h3, h4⟩ :=
    aisprint_c2_atomic_claim.2.2.2 claimDB "T1" "dev-001" "dev-002" claimT1
      rfl rfl rfl
  exact ⟨h1, h2, by rw [h4]; rfl⟩

/-- C5 counterexample: creating `convoy-b` with files overlapping the
non-`done` `convoy-a` of the same feature does not fail — the insert
succeeds and leaves two non-`done` convoys both containing `src/b.py`. -/
theorem aisprint_c5_overlap_create_succeeds :
    (create_convoy c5DB "convoy-b" "feat-1" "Story B" "P1"
        ["src/b.py", "src/c.py"]).map
      (fun s2 => s2.convoys.map
        (fun c => (c.id, c.status, c.files.contains "src/b.py"))) =
    Except.ok [("convoy-a", ConvoyStatus.available, true),
               ("convoy-b", ConvoyStatus.available, true)] := by
  rfl

/-- C5 amended: the overlap validator, when invoked, rejects a proposed
file set meeting a non-`done` convoy of the feature with an error naming
the overlapping files (`src/b.py` for the S4 pair) — but neither
`create_convoy` nor `update_convoy_files` invokes it: creation succeeds
whenever the primary-key and foreign-key constraints hold, whatever the
files, and a file-list update always succeeds, so disjointness is not
enforced at writes. -/
theorem aisprint_c5_validator_not_wired :
    (validate_no_file_conflicts c5DB "feat-1" ["src/b.py", "src/c.py"] =
      .error [{ convoyId := "convoy-a", convoyStatus := .available,
                overlappingFiles := ["src/b.py"] }]) ∧
    (∀ s cid fid story prio files deps st,
      s.convoys.any (fun c => c.id == cid) = false →
      s.features.any (fun f => f.id == fid) = true →
      create_convoy s cid fid story prio files deps st =
        .ok { s with convoys := s.convoys ++
          [{ id := cid, featureId := fid, story := story, priority := prio,
             files := files, dependencies := deps, status := st,
             assignee := none, createdAt := s.now, startedAt := none,
             completedAt := none }] }) ∧
    (∀ s cid files, List.Forall₂ (fun old new =>
        (old.id ≠ cid → new = old) ∧
        (old.id = cid → new = { old with files := files }))
      s.convoys (update_convoy_files s cid files).convoys) := by
  refine ⟨rfl, ?_, ?_⟩
  · intro s cid fid story prio files deps st hpk hfk
    unfold create_convoy
    rw [hpk, hfk]
    rfl
  · intro s cid files
    apply forall₂_map_self
    intro c hc
    by_cases hid : c.id = cid <;> simp [hid]

/-- C5 witness: the amended claim applied on `c5DB` — the insert of the
overlapping `convoy-b` goes through as a plain append. -/
theorem aisprint_c5_validator_not_wired_witness :
    create_convoy c5DB "convoy-b" "feat-1" "Story B" "P1"
        ["src/b.py", "src/c.py"] [] .available =
      .ok { c5DB with convoys := c5DB.convoys ++
        [{ id := "convoy-b", featureId := "feat-1", story := "Story B",
           priority := "P1", files := ["src/b.py", "src/c.py"],
           dependencies := [], status := .available, assignee := none,
           createdAt := c5DB.now, startedAt := none,
           completedAt := none }] } :=
  aisprint_c5_validator_not_wired.2.1 c5DB "convoy-b" "feat-1" "Story B"
    "P1" ["src/b.py", "src/c.py"] [] .available (by rfl) (by rfl)

/-- C1 counterexample: the third rejection of `T2` (failure count 2 → 3)
leaves the task `in_progress` — not `todo` — with its assignee still set
and `failure_reason` equal to the raw reason, and publishes only the
`ESCALATE_TASK` event: no `REWORK_NEEDED` event is published by
`reject_task`. -/
theorem aisprint_c1_third_reject_not_escalating_state :
    ((get_task (reject_task c1DB "T2" "lint errors" "cab" "evt-esc-1")
        "T2").map
      (fun t => (t.status, t.assignee, t.failureReason, t.failureCount))) =
      some (TaskStatus.inProgress, some "dev-001", some "lint errors", 3) ∧
    ((reject_task c1DB "T2" "lint errors" "cab" "evt-esc-1").events.map
      (fun e => (e.agentId, e.eventType))) =
      [("manager", "ESCALATE_TASK")] ∧
    ¬ ((get_task (reject_task c1DB "T2" "lint errors" "cab" "evt-esc-1")
        "T2").map (fun t => t.status) = some TaskStatus.todo) ∧
    ¬ ((get_task (reject_task c1DB "T2" "lint errors" "cab" "evt-esc-1")
        "T2").map (fun t => t.assignee) = some none) ∧
    ((reject_task c1DB "T2" "lint errors" "cab" "evt-esc-1").events.all
      (fun e => !(e.eventType == "REWORK_NEEDED"))) = true := by
  refine ⟨rfl, rfl, ?_, ?_, rfl⟩ <;> decide

/-- C1 amended: `state_manager.reject_task` increments `failure_count`,
sets `failure_reason` to the given reason, and moves the task to
`in_progress` when the current status permits it (stamping `started_at`),
leaving the assignee untouched; when the post-increment count is at least
3 it appends exactly one `ESCALATE_TASK` event addressed to `manager` with
the task id and count in the payload — it publishes no `REWORK_NEEDED`
event, never clears the assignee, and never returns the task to `todo`.
`CABAgent.reject_task`, separately, sets the task to `in_progress` and
publishes `REWORK_NEEDED` to `developer` with the reason in the payload,
without touching any failure count. -/
theorem aisprint_c1_reject_amended :
    (∀ s tid reason agent eid t, get_task s tid = some t →
      (get_task (reject_task s tid reason agent eid) tid =
        some { t with
          failureCount := t.failureCount + 1,
          failureReason := some reason,
          status :=
            if validate_task_transition t.status TaskStatus.inProgress =
                true then TaskStatus.inProgress else t.status,
          startedAt :=
            if validate_task_transition t.status TaskStatus.inProgress =
                true then some s.now else t.startedAt }) ∧
      ((reject_task s tid reason agent eid).events =
        if t.failureCount + 1 ≥ 3 then
          s.events ++
            [{ id := eid, agentId := "manager",
               eventType := "ESCALATE_TASK",
               payload := [("task_id", PVal.str tid),
                           ("failure_count", PVal.num (t.failureCount + 1))],
               status := .pending, createdAt := s.now,
               processedAt := none }]
        else s.events)) ∧
    (∀ s tid reason eid,
      ((cab_reject_task s tid reason eid).events =
        s.events ++
          [{ id := eid, agentId := "developer",
             eventType := "REWORK_NEEDED",
             payload := [("task_id", PVal.str tid),
                         ("reason", PVal.str reason)],
             status := .pending, createdAt := s.now,
             processedAt := none }]) ∧
      (get_task (cab_reject_task s tid reason eid) tid =
        (get_task s tid).map (fun u =>
          { u with status := TaskStatus.inProgress,
                   startedAt := some s.now })) ∧
      ((cab_reject_task s tid reason eid).tasks.map
          (fun u => u.failureCount) =
        s.tasks.map (fun u => u.failureCount))) := by
  constructor
  · intro s tid reason agent eid t hg
    have hg' : List.find? (fun u => u.id == tid) s.tasks = some t := hg
    have hid := List.find?_some hg'
    have hf1 : ∀ a : Task, ((fun u =>
        if u.id == tid then
          { u with failureCount := u.failureCount + 1,
                   failureReason := some reason }
        else u) a).id = a.id := by
      intro a
      by_cases ha : (a.id == tid) = true <;> simp [ha]
    have hg1 : get_task { s with tasks := s.tasks.map (fun u =>
        if u.id == tid then
          { u with failureCount := u.failureCount + 1,
                   failureReason := some reason }
        else u) } tid =
        some { t with failureCount := t.failureCount + 1,
                      failureReason := some reason } := by
      rw [get_task_map s tid _ hf1, hg]
      simp [hid]
      exact fun h => absurd (by simpa using hid) h
    have hg2 : get_task (update_task_status
        { s with tasks := s.tasks.map (fun u =>
          if u.id == tid then
            { u with failureCount := u.failureCount + 1,
                     failureReason := some reason }
          else u) } tid .inProgress) tid =
        some { t with failureCount := t.failureCount + 1,
                      failureReason := some reason,
                      status := TaskStatus.inProgress,
                      startedAt := some s.now } := by
      unfold update_task_status
      rw [get_task_map _ tid _ (fun a => by
        by_cases ha : (a.id == tid) = true <;> simp [ha])]
      rw [hg1]
      simp [hid]
      exact fun h => absurd (by simpa using hid) h
    unfold reject_task
    rw [hg]
    unfold increment_task_failure_count
    dsimp only
    rw [hg1]
    unfold transition_task_status
    rw [hg1]
    dsimp only
    by_cases hv : validate_task_transition t.status TaskStatus.inProgress =
        true
    · by_cases hcnt : t.failureCount + 1 ≥ 3
      · refine ⟨?_, ?_⟩ <;> simp only [if_pos hv, if_pos hcnt]
        · exact hg2
        · rfl
      · refine ⟨?_, ?_⟩ <;> simp only [if_pos hv, if_neg hcnt]
        · exact hg2
        · rfl
    · by_cases hcnt : t.failureCount + 1 ≥ 3
      · refine ⟨?_, ?_⟩ <;> simp only [if_neg hv, if_pos hcnt]
        · exact hg1
        · rfl
      · refine ⟨?_, ?_⟩ <;> simp only [if_neg hv, if_neg hcnt]
        exact hg1
  · intro s tid reason eid
    refine ⟨rfl, ?_, ?_⟩
    · unfold cab_reject_task
      show get_task (update_task_status s tid .inProgress) tid = _
      unfold update_task_status
      rw [get_task_map _ tid _ (fun a => by
        by_cases ha : (a.id == tid) = true <;> simp [ha])]
      cases hg : get_task s tid with
      | none => rfl
      | some t =>
        have hg' : List.find? (fun u => u.id == tid) s.tasks = some t := hg
        have hid := List.find?_some hg'
        simp [hid]
        exact fun h => absurd (by simpa using hid) h
    · show (update_task_status s tid .inProgress).tasks.map
        (fun u => u.failureCount) = s.tasks.map (fun u => u.failureCount)
      unfold update_task_status
      dsimp only
      rw [List.map_map]
      apply List.map_congr_left
      intro a ha
      by_cases hida : a.id = tid <;> simp [hida]

/-- C1 witness: the amended claim evaluated at the third rejection of
`T2` in `c1DB` — the count reaches 3, the status moves
`in_review → in_progress`, and the single published event is the
escalation to `manager`. -/
theorem aisprint_c1_reject_amended_witness :
    (get_task (reject_task c1DB "T2" "lint errors" "cab" "evt-esc-1")
        "T2" =
      some { c1T2 with
        failureCount := c1T2.failureCount + 1,
        failureReason := some "lint errors",
        status :=
          if validate_task_transition c1T2.status TaskStatus.inProgress =
              true then TaskStatus.inProgress else c1T2.status,
        startedAt :=
          if validate_task_transition c1T2.status TaskStatus.inProgress =
              true then some c1DB.now else c1T2.startedAt }) ∧
    ((reject_task c1DB "T2" "lint errors" "cab" "evt-esc-1").events =
      if c1T2.failureCount + 1 ≥ 3 then
        c1DB.events ++
          [{ id := "evt-esc-1", agentId := "manager",
             eventType := "ESCALATE_TASK",
             payload := [("task_id", PVal.str "T2"),
                         ("failure_count",
                          PVal.num (c1T2.failureCount + 1))],
             status := .pending, createdAt := c1DB.now,
             processedAt := none }]
      else c1DB.events) :=
  aisprint_c1_reject_amended.1 c1DB "T2" "lint errors" "cab" "evt-esc-1"
    c1T2 (by rfl)

/-- C8: whenever `allocate_next_convoy` returns a convoy id, that convoy
was `available` for the feature with every dependency `done`, it was least
in (priority ascending, created_at ascending) order among the feature's
available convoys, and afterwards it is `in_progress` with the caller as
assignee; and when, after the unblock sweep, a convoy is the sole
available convoy of the feature with all dependencies done, the next
allocate call returns it. -/
theorem aisprint_c8_allocator :
    (∀ s fid aid cid, (s.convoys.map (fun c => c.id)).Nodup →
      (allocate_next_convoy s fid aid).1 = some cid →
      ∃ c, get_convoy s cid = some c ∧ c ∈ s.convoys ∧ c.featureId = fid ∧
        c.status = ConvoyStatus.available ∧
        (∀ depId ∈ c.dependencies, ∃ d, get_convoy s depId = some d ∧
          d.status = ConvoyStatus.done) ∧
        (∀ d ∈ s.convoys, d.featureId = fid →
          d.status = ConvoyStatus.available → convoyLe c d = true) ∧
        get_convoy (allocate_next_convoy s fid aid).2 cid =
          some { c with status := ConvoyStatus.inProgress,
                        assignee := some aid,
                        startedAt := some s.now }) ∧
    (∀ s doneId fid aid c,
      list_convoys_by_feature (unblock_dependent_convoys s doneId).2 fid
        (some ConvoyStatus.available) = [c] →
      check_convoy_dependencies_met (unblock_dependent_convoys s doneId).2
        c.id = true →
      (allocate_next_convoy (unblock_dependent_convoys s doneId).2 fid
        aid).1 = some c.id) := by
  constructor
  · intro s fid aid cid hnodup halloc
    unfold allocate_next_convoy at halloc ⊢
    dsimp only at halloc ⊢
    cases hh : (sortLe convoyLe
        (list_convoys_by_feature s fid (some .available))).head? with
    | none =>
      rw [hh] at halloc
      exact Option.noConfusion halloc
    | some c =>
      rw [hh] at halloc
      dsimp only at halloc ⊢
      by_cases hdeps : check_convoy_dependencies_met s c.id = true
      · rw [if_pos hdeps] at halloc
        injection halloc with hcid
        subst hcid
        have hmem0 : c ∈ list_convoys_by_feature s fid (some .available) :=
          sortLe_head_mem convoyLe _ c hh
        have hmem : c ∈ s.convoys :=
          (List.mem_filter.mp hmem0).1
        have hfs : (c.featureId == fid &&
            c.status == ConvoyStatus.available) = true :=
          (List.mem_filter.mp hmem0).2
        rw [Bool.and_eq_true, beq_iff_eq, beq_iff_eq] at hfs
        have hfind : get_convoy s c.id = some c := by
          unfold get_convoy
          have h := find?_key_eq_of_mem_nodup (fun x => x.id) s.convoys
            hnodup c hmem
          exact h
        refine ⟨c, hfind, hmem, hfs.1, hfs.2, ?_, ?_, ?_⟩
        · intro depId hdep
          unfold check_convoy_dependencies_met at hdeps
          rw [hfind] at hdeps
          have h2 := (List.all_eq_true.mp hdeps) depId hdep
          cases hgd : get_convoy s depId with
          | none => rw [hgd] at h2; cases h2
          | some d =>
            rw [hgd] at h2
            exact ⟨d, rfl, by simpa using h2⟩
        · intro d hd hdfid hdav
          have hdmem : d ∈ list_convoys_by_feature s fid (some .available) :=
            List.mem_filter.mpr ⟨hd, by simp [hdfid, hdav]⟩
          rcases sortLe_head_le convoyLe convoyLe_total convoyLe_trans _ c
            hh d hdmem with rfl | hle
          · exact convoyLe_refl c
          · exact hle
        · rw [if_pos hdeps]
          unfold update_convoy_status
          rw [get_convoy_map _ c.id _ (fun a => by
            by_cases ha : (a.id == c.id) = true <;> simp [ha])]
          rw [hfind]
          simp
      · rw [if_neg hdeps] at halloc
        cases halloc
  · intro s doneId fid aid c hsingle hdeps
    unfold allocate_next_convoy
    dsimp only
    rw [hsingle]
    dsimp only [sortLe, insertLe, List.head?]
    rw [if_pos hdeps]

/-- C8 witness: in `c8DB` the sweep after `convoy-b0`'s completion leaves
`convoy-a0` as the sole available convoy with its dependency done, the
next allocation returns it, and afterwards it is `in_progress` assigned to
`dev-001`. -/
theorem aisprint_c8_allocator_witness :
    (allocate_next_convoy (unblock_dependent_convoys c8DB "convoy-b0").2
      "feat-1" "dev-001").1 = some "convoy-a0" ∧
    (get_convoy (allocate_next_convoy
        (unblock_dependent_convoys c8DB "convoy-b0").2
        "feat-1" "dev-001").2 "convoy-a0").map
      (fun c => (c.status, c.assignee)) =
      some (ConvoyStatus.inProgress, some "dev-001") := by
  have hB := aisprint_c8_allocator.2 c8DB "convoy-b0" "feat-1" "dev-001"
    { id := "convoy-a0", featureId := "feat-1", story := "Story A",
      priority := "P1", files := ["src/a.py"],
      dependencies := ["convoy-b0"], status := .available,
      assignee := none, createdAt := "2026-01-01T01:30:00",
      startedAt := none, completedAt := none }
    (by rfl) (by rfl)
  refine ⟨hB, ?_⟩
  obtain ⟨c, hfind, hmem, hfid, hst, hdeps, hmin, hpost⟩ :=
    aisprint_c8_allocator.1 (unblock_dependent_convoys c8DB "convoy-b0").2
      "feat-1" "dev-001" "convoy-a0" (by decide) hB
  rw [hpost]
  rfl

/-- C4: `consume_events` returns only pending events addressed to the
agent, at most `limit` of them, in non-decreasing created-instant order,
and flips each returned event to `processing`; and over any sequence of
queue operations whose publishes draw fresh ids, an event id is returned
by at most one consume — at-most-once delivery. -/
theorem aisprint_c4_consume_at_most_once :
    (∀ s aid limit e, e ∈ (consume_events s aid limit).1 →
      e ∈ s.events ∧ e.agentId = aid ∧ e.status = EventStatus.pending) ∧
    (∀ s aid limit, (consume_events s aid limit).1.length ≤ limit) ∧
    (∀ s aid limit, (consume_events s aid limit).1.Pairwise
      (fun a b => a.createdAt ≤ b.createdAt)) ∧
    (∀ s aid limit e, e ∈ (consume_events s aid limit).1 →
      event_statusOf (consume_events s aid limit).2 e.id =
        some EventStatus.processing) ∧
    (∀ s ops eid, FreshPublishes s ops → deliveredCount s ops eid ≤ 1) := by
  refine ⟨consume_events_mem, ?_, ?_, consume_events_marks,
    deliveredCount_le_one⟩
  · intro s aid limit
    rw [consume_events_fst]
    exact List.length_take_le _ _
  · intro s aid limit
    rw [consume_events_fst]
    have hp := pairwise_sortLe eventLe eventLe_total eventLe_trans
      (s.events.filter (fun e => e.agentId == aid &&
        e.status == EventStatus.pending))
    exact (hp.sublist (List.take_sublist _ _)).imp
      (fun h => of_decide_eq_true h)

/-- C4 witness: on `c4DB` a consume by `cab` returns exactly the pending
`evt-a` (not the `done` `evt-c`, not the other agent's `evt-d`), marks it
`processing`, and across two consecutive consumes the id is delivered
exactly once. -/
theorem aisprint_c4_consume_at_most_once_witness :
    ((consume_events c4DB "cab" 10).1.map (fun e => (e.id, e.status))) =
      [("evt-a", EventStatus.pending)] ∧
    event_statusOf (consume_events c4DB "cab" 10).2 "evt-a" =
      some EventStatus.processing ∧
    deliveredCount c4DB
      [QOp.consume "cab" 10, QOp.consume "cab" 10] "evt-a" = 1 ∧
    deliveredCount c4DB
      [QOp.consume "cab" 10, QOp.consume "cab" 10] "evt-a" ≤ 1 := by
  refine ⟨rfl, ?_, rfl, ?_⟩
  · exact aisprint_c4_consume_at_most_once.2.2.2.1 c4DB "cab" 10
      { id := "evt-a", agentId := "cab", eventType := "ROUTE_TASK",
        payload := [], status := .pending,
        createdAt := "2026-01-01T00:01:00", processedAt := none }
      (by decide)
  · exact aisprint_c4_consume_at_most_once.2.2.2.2 c4DB
      [QOp.consume "cab" 10, QOp.consume "cab" 10] "evt-a"
      ⟨trivial, trivial, trivial⟩

end AiSprint
